import Mathlib

/-!
Verification of the snake-game network client (`src/snake/client.rs`).

The five per-tick routines of the client plugin are embedded as pure Lean
functions over explicit state.  Fallible code (the Rust code fails fatally on
protocol violations) is embedded with `Except`; the error value carries the
message together with the local entity state at the moment of the failure, so
"no mutation before the failure" is expressible.  Machine integers carry no
arithmetic that can overflow here (`NumSnakesToSpawn` only counts down from a
server-declared count and ids only count up by one per spawn), so they are
modelled as `Int` / `Nat`.
-/

namespace BevySnake

/-- Cardinal movement directions (`common::components::Direction`). -/
inductive Direction where
  | Left
  | Right
  | Up
  | Down
deriving DecidableEq, Repr

/-- Modelled from the spec: `Direction::opposite` is defined in
`common/components.rs`, which is outside the given sources.  Spec §6:
"Direction is one of four cardinal values with a defined opposite mapping
(Left↔Right, Up↔Down) used for the illegal-reversal check." -/
def Direction.opposite : Direction → Direction
  | .Left => .Right
  | .Right => .Left
  | .Up => .Down
  | .Down => .Up

/-- A render color.  In the source the three components are `f32` values that
are only ever copied, never computed with or compared, so the carrier type of
the components is irrelevant; `Int` is used. -/
structure Color where
  r : Int
  g : Int
  b : Int
deriving DecidableEq, Repr

/-- A grid position (`common::components::Position`, fields `x`, `y`). -/
structure Position where
  x : Int
  y : Int
deriving DecidableEq, Repr

/-- A tail segment entity: owns a `Position` and a render color. -/
structure TailSeg where
  pos : Position
  color : Color
deriving DecidableEq, Repr

/-- A snake: the `SnakeHead` component (id, committed direction, pending input
direction, color, owned tail-segment sequence) together with its `Position`.
The tail is the ordered sequence of owned tail segments; in the source the
head stores entity references and the segments own their positions, here the
segments are stored inline. -/
structure Snake where
  id : Nat
  pos : Position
  direction : Direction
  input_direction : Direction
  color : Color
  tail : List TailSeg
deriving DecidableEq, Repr

/-- Resource: the next snake id the client expects (`SnakeId { id }`). -/
structure SnakeId where
  id : Nat
deriving DecidableEq, Repr

/-- Resource: snakes still expected during PreGame (`NumSnakesToSpawn { num }`,
an `i32` in the source since it is checked for negativity). -/
structure NumSnakesToSpawn where
  num : Int
deriving DecidableEq, Repr

/-- Resource: the id of this client's own snake (`ClientId { id }`). -/
structure ClientId where
  id : Nat
deriving DecidableEq, Repr

/-- Connection phase of the client (`GameState`). -/
inductive GameState where
  | ConnectToServer
  | PreGame
  | Running
deriving DecidableEq, Repr

/-- Inbound packet: session ack with declared snake count and assigned id. -/
structure StartNewGameAck where
  num_snakes : Nat
  client_id : Nat
deriving DecidableEq, Repr

/-- Inbound packet: one snake spawn (id, position tuple, color). -/
structure SpawnSnake where
  id : Nat
  position : Int × Int
  sRGB : Color
deriving DecidableEq, Repr

/-- Inbound packet: one tail spawn (snake id, position tuple). -/
structure SpawnTail where
  id : Nat
  position : Int × Int
deriving DecidableEq, Repr

/-- One per-snake orientation update inside a `SnakePositions` packet. -/
structure Orientation where
  id : Nat
  position : Int × Int
  input_direction : Direction
  direction : Direction
  tail_positions : List (Int × Int)
deriving DecidableEq, Repr

/-- Inbound packet: a list of per-snake orientation updates. -/
structure SnakePositions where
  positions : List Orientation
deriving DecidableEq, Repr

/-- Outbound packet: movement intent (`SnakeMovement { id, direction }`). -/
structure SnakeMovement where
  id : Nat
  direction : Direction
deriving DecidableEq, Repr

/-! ## `wait_for_ack` (ConnectToServer phase) -/

/-- The state `wait_for_ack` reads and writes: the connection phase and the
two resources it may insert. -/
structure ConnectSt where
  phase : GameState
  num_snakes : Option NumSnakesToSpawn
  client_id : Option ClientId
deriving DecidableEq, Repr

/-- `wait_for_ack`: poll for `StartNewGameAck`; on a present, non-empty batch
take the first ack, record the expected snake count and the client id, and
move to `PreGame`.  `none` models the poll returning nothing. -/
def wait_for_ack (st : ConnectSt) (ack : Option (List StartNewGameAck)) :
    ConnectSt :=
  match ack with
  | none => st
  | some acks =>
    match acks with
    | [] => st
    | a :: _ =>
      { phase := GameState.PreGame,
        num_snakes := some ⟨(a.num_snakes : Int)⟩,
        client_id := some ⟨a.client_id⟩ }

/-! ## `pre_game` (PreGame phase) -/

/-- Modelled from the spec: `spawn_snake` lives in `snake/mod.rs`, outside the
given sources.  Spec §4.2: "instantiate a new Snake entity with the given
position and color, bound to `record.id`".  A new snake owns no tail segments;
the source does not show the initial direction fields and no claim depends on
them, so both are `Up` here. -/
def spawn_snake (id : Nat) (pos : Position) (color : Color) : Snake :=
  { id := id, pos := pos, direction := Direction.Up,
    input_direction := Direction.Up, color := color, tail := [] }

/-- The state `pre_game` reads and writes. -/
structure PreSt where
  snake_id : SnakeId
  num_snakes : NumSnakesToSpawn
  snakes : List Snake
deriving DecidableEq, Repr

def idMismatchMsg : String :=
  "[client] Received snake id from server that did not match tracked id"

def tooManySnakesMsg : String := "[client] Spawned more snakes than expected!"

/-- The loop body of `pre_game` over one spawn batch, in received order: a
record with id below the tracked id is skipped; an id above it is a fatal
mismatch; an id equal to it spawns the snake, increments the tracked id,
decrements the expected count, and fails fatally if the count went negative.
Errors carry the state at the moment of the failure. -/
def processSpawns : PreSt → List SpawnSnake → Except (String × PreSt) PreSt
  | st, [] => Except.ok st
  | st, sp :: rest =>
    if sp.id < st.snake_id.id then
      processSpawns st rest
    else if sp.id > st.snake_id.id then
      Except.error (idMismatchMsg, st)
    else
      let st' : PreSt :=
        { snake_id := ⟨st.snake_id.id + 1⟩,
          num_snakes := ⟨st.num_snakes.num - 1⟩,
          snakes := st.snakes ++
            [spawn_snake sp.id ⟨sp.position.1, sp.position.2⟩ sp.sRGB] }
      if st'.num_snakes.num < 0 then
        Except.error (tooManySnakesMsg, st')
      else
        processSpawns st' rest

/-- `pre_game` for one tick: drain the spawn batch if one is present, then
send `Ready` exactly if the expected count is zero.  The returned `Bool` is
whether a `Ready` packet was sent this tick. -/
def pre_game (st : PreSt) (batch : Option (List SpawnSnake)) :
    Except (String × PreSt) (PreSt × Bool) :=
  match batch with
  | none => Except.ok (st, false)
  | some spawns =>
    match processSpawns st spawns with
    | Except.error e => Except.error e
    | Except.ok st' => Except.ok (st', st'.num_snakes.num == 0)

/-- A session during the spawn phase: the connection phase together with the
`pre_game` state. -/
structure Session where
  phase : GameState
  pre : PreSt
deriving DecidableEq, Repr

/-- One scheduler tick of the spawn phase.  `pre_game` runs only while the
phase is `PreGame` (plugin registration: `run_in_state(GameState::PreGame)`).
Modelled from the spec: the `PreGame → Running` transition itself is not in
`snake/client.rs`; spec §4.1: the phase "transitions to `Running` implicitly
once the expected-count reaches zero and a readiness packet has been sent
(readiness-emission is the transition trigger)". -/
def sessionStep (s : Session) (inp : Option (List SpawnSnake)) :
    Except (String × PreSt) (Session × Bool) :=
  match s.phase with
  | GameState.PreGame =>
    match pre_game s.pre inp with
    | Except.error e => Except.error e
    | Except.ok (st', ready) =>
      Except.ok
        (⟨if ready then GameState.Running else GameState.PreGame, st'⟩, ready)
  | _ => Except.ok (s, false)

/-- Run a session over a sequence of per-tick spawn batches, counting how many
`Ready` packets were sent. -/
def sessionRun : Session → List (Option (List SpawnSnake)) →
    Except (String × PreSt) (Session × Nat)
  | s, [] => Except.ok (s, 0)
  | s, inp :: rest =>
    match sessionStep s inp with
    | Except.error e => Except.error e
    | Except.ok (s', ready) =>
      match sessionRun s' rest with
      | Except.error e => Except.error e
      | Except.ok (s'', n) =>
        Except.ok (s'', n + (if ready then 1 else 0))

/-! ## `update_snake_positions` (Running phase) -/

def unknownSnakeMsg : String := "[client] Snake with ID does not exist!"

/-- Overwrite the prefix of a local tail-segment list with server-reported
positions, positionally by index, up to `min` of the two lengths: the loop
over the local tail with `break` once the index reaches the server length.
Segment colors are untouched (only the `Position` component is written). -/
def writeTail : List TailSeg → List (Int × Int) → List TailSeg
  | old, [] => old
  | [], _ => []
  | t :: old, p :: srv => ⟨⟨p.1, p.2⟩, t.color⟩ :: writeTail old srv

/-- Apply one orientation record to one snake: on the snake with the record's
id, overwrite position, pending input direction and committed direction with
the server values and reconcile the tail prefix; any other snake is
untouched.  (In the source the update goes through a per-tick id-keyed
directory of the live snakes, so it reaches exactly the snake carrying the
record's id.) -/
def updOne (r : Orientation) (s : Snake) : Snake :=
  if s.id = r.id then
    { s with pos := ⟨r.position.1, r.position.2⟩,
             input_direction := r.input_direction,
             direction := r.direction,
             tail := writeTail s.tail r.tail_positions }
  else s

/-- The orientation loop of `update_snake_positions`: records are applied in
received order; a record whose id is absent from the directory is a fatal
protocol violation, the error carrying the directory at the moment of the
failure. -/
def applyOrients : List Snake → List Orientation →
    Except (String × List Snake) (List Snake)
  | d, [] => Except.ok d
  | d, r :: rest =>
    if d.any (fun s => s.id == r.id) then
      applyOrients (d.map (updOne r)) rest
    else
      Except.error (unknownSnakeMsg, d)

/-- `update_snake_positions` for one tick: drain the `SnakePositions` batch if
present and apply every orientation record of every packet in order. -/
def update_snake_positions (d : List Snake)
    (batch : Option (List SnakePositions)) :
    Except (String × List Snake) (List Snake) :=
  match batch with
  | none => Except.ok d
  | some ps => applyOrients d (ps.flatMap SnakePositions.positions)

/-! ## `snake_movement_input` (Running phase) -/

/-- The pressed state of the four arrow keys this tick. -/
structure Keys where
  left : Bool
  down : Bool
  up : Bool
  right : Bool
deriving DecidableEq, Repr

/-- The candidate direction: fixed precedence Left, then Down, then Up, then
Right among pressed keys; the pending input direction if none is pressed. -/
def sampleDir (keys : Keys) (pending : Direction) : Direction :=
  if keys.left then Direction.Left
  else if keys.down then Direction.Down
  else if keys.up then Direction.Up
  else if keys.right then Direction.Right
  else pending

/-- The body run on the matched head: emit `SnakeMovement` exactly when the
candidate direction is neither the opposite of the committed direction nor
equal to the pending input direction, setting the pending input direction to
it on emission (the packet carries the freshly updated pending direction). -/
def moveHead (keys : Keys) (h : Snake) : Snake × Option SnakeMovement :=
  let dir := sampleDir keys h.input_direction
  if dir ≠ h.direction.opposite ∧ dir ≠ h.input_direction then
    ({ h with input_direction := dir }, some ⟨h.id, dir⟩)
  else
    (h, none)

/-- `snake_movement_input` for one tick: walk the heads, act on the first one
whose id equals the session's `ClientId`, then `break`. -/
def snake_movement_input (keys : Keys) (client_id : ClientId) :
    List Snake → List Snake × Option SnakeMovement
  | [] => ([], none)
  | h :: rest =>
    if h.id = client_id.id then
      let res := moveHead keys h
      (res.1 :: rest, res.2)
    else
      let res := snake_movement_input keys client_id rest
      (h :: res.1, res.2)

/-! ## `handle_spawn_tail` (Running phase) -/

/-- Modelled from the spec: `spawn_tail` lives in `snake/mod.rs`, outside the
given sources.  Spec §4.4: "create a new tail segment entity at the given
position inheriting the head's current render color". -/
def spawn_tail (pos : Position) (color : Color) : TailSeg :=
  { pos := pos, color := color }

/-- The record loop of `handle_spawn_tail`: for each record (a fresh directory
is rebuilt per record in the source), a record whose id is absent is a fatal
protocol violation; otherwise a new tail segment at the record's position
with the owning head's color is appended to that snake's tail sequence. -/
def processSpawnTails : List Snake → List SpawnTail →
    Except (String × List Snake) (List Snake)
  | d, [] => Except.ok d
  | d, st :: rest =>
    if d.any (fun s => s.id == st.id) then
      processSpawnTails
        (d.map (fun s =>
          if s.id = st.id then
            { s with tail := s.tail ++
                [spawn_tail ⟨st.position.1, st.position.2⟩ s.color] }
          else s))
        rest
    else
      Except.error (unknownSnakeMsg, d)

/-- `handle_spawn_tail` for one tick: drain the `SpawnTail` batch if present
and process the records in received order. -/
def handle_spawn_tail (d : List Snake) (batch : Option (List SpawnTail)) :
    Except (String × List Snake) (List Snake) :=
  match batch with
  | none => Except.ok d
  | some sts => processSpawnTails d sts

/-- The per-snake effect of a record list applied in order: `applyOrients`
factors through this (each record only touches the snake carrying its id). -/
def chainUpd (rs : List Orientation) (s : Snake) : Snake :=
  rs.foldl (fun s r => updOne r s) s

/-- The largest server tail length any record for snake id `k` reports:
tail indices at or beyond it are never written by the record list. -/
def cover (k : Nat) : List Orientation → Nat
  | [] => 0
  | r :: rs => if r.id = k then max r.tail_positions.length (cover k rs)
               else cover k rs

/-! ## Basic lemmas about the embedded routines -/

theorem writeTail_length (old : List TailSeg) (srv : List (Int × Int)) :
    (writeTail old srv).length = old.length := by
  induction old generalizing srv with
  | nil => cases srv <;> rfl
  | cons t old ih =>
    cases srv with
    | nil => rfl
    | cons p srv => simp [writeTail, ih]

theorem writeTail_get? (old : List TailSeg) (srv : List (Int × Int)) (i : Nat) :
    (writeTail old srv).get? i =
      match srv.get? i with
      | none => old.get? i
      | some p => (old.get? i).map (fun t => ⟨⟨p.1, p.2⟩, t.color⟩) := by
  induction old generalizing srv i with
  | nil =>
    cases srv with
    | nil => simp [writeTail]
    | cons p srv =>
      cases i with
      | zero => simp [writeTail]
      | succ j => simp [writeTail]; split <;> rfl
  | cons t old ih =>
    cases srv with
    | nil => simp [writeTail]
    | cons p srv =>
      cases i with
      | zero => simp [writeTail]
      | succ j => simpa [writeTail] using ih srv j

theorem updOne_id (r : Orientation) (s : Snake) : (updOne r s).id = s.id := by
  unfold updOne; split <;> rfl

theorem updOne_color (r : Orientation) (s : Snake) :
    (updOne r s).color = s.color := by
  unfold updOne; split <;> rfl

theorem updOne_tail_length (r : Orientation) (s : Snake) :
    (updOne r s).tail.length = s.tail.length := by
  unfold updOne; split
  · exact writeTail_length _ _
  · rfl

theorem updOne_tail_color (r : Orientation) (s : Snake) (i : Nat) :
    ((updOne r s).tail.get? i).map TailSeg.color =
      (s.tail.get? i).map TailSeg.color := by
  unfold updOne; split
  · rw [writeTail_get?]
    cases hsrv : r.tail_positions.get? i with
    | none => rfl
    | some p => cases s.tail.get? i <;> simp
  · rfl

theorem updOne_not_target (r : Orientation) (s : Snake) (h : ¬ s.id = r.id) :
    updOne r s = s := by
  unfold updOne; rw [if_neg h]

theorem chainUpd_cons (r : Orientation) (rs : List Orientation) (s : Snake) :
    chainUpd (r :: rs) s = chainUpd rs (updOne r s) := rfl

theorem chainUpd_id (rs : List Orientation) (s : Snake) :
    (chainUpd rs s).id = s.id := by
  induction rs generalizing s with
  | nil => rfl
  | cons r rs ih => rw [chainUpd_cons, ih, updOne_id]

theorem chainUpd_color (rs : List Orientation) (s : Snake) :
    (chainUpd rs s).color = s.color := by
  induction rs generalizing s with
  | nil => rfl
  | cons r rs ih => rw [chainUpd_cons, ih, updOne_color]

theorem chainUpd_tail_length (rs : List Orientation) (s : Snake) :
    (chainUpd rs s).tail.length = s.tail.length := by
  induction rs generalizing s with
  | nil => rfl
  | cons r rs ih => rw [chainUpd_cons, ih, updOne_tail_length]

theorem chainUpd_tail_color (rs : List Orientation) (s : Snake) (i : Nat) :
    ((chainUpd rs s).tail.get? i).map TailSeg.color =
      (s.tail.get? i).map TailSeg.color := by
  induction rs generalizing s with
  | nil => rfl
  | cons r rs ih => rw [chainUpd_cons, ih, updOne_tail_color]

theorem chainUpd_no_record (rs : List Orientation) (s : Snake)
    (h : rs.any (fun r => r.id == s.id) = false) : chainUpd rs s = s := by
  induction rs with
  | nil => rfl
  | cons r rs ih =>
    simp only [List.any_cons, Bool.or_eq_false_iff, beq_eq_false_iff_ne] at h
    rw [chainUpd_cons, updOne_not_target r s (fun hs => h.1 hs.symm)]
    exact ih h.2

theorem cover_no_record (k : Nat) (rs : List Orientation)
    (h : rs.any (fun r => r.id == k) = false) : cover k rs = 0 := by
  induction rs with
  | nil => rfl
  | cons r rs ih =>
    simp only [List.any_cons, Bool.or_eq_false_iff, beq_eq_false_iff_ne] at h
    rw [cover, if_neg h.1]
    exact ih h.2

theorem chainUpd_frame (rs : List Orientation) (s : Snake) (i : Nat)
    (h : cover s.id rs ≤ i) : (chainUpd rs s).tail.get? i = s.tail.get? i := by
  induction rs generalizing s with
  | nil => rfl
  | cons r rs ih =>
    rw [chainUpd_cons]
    by_cases hr : r.id = s.id
    · rw [cover, if_pos hr, max_le_iff] at h
      have hcov : cover (updOne r s).id rs ≤ i := by rw [updOne_id]; exact h.2
      rw [ih (updOne r s) hcov]
      unfold updOne
      rw [if_pos hr.symm]
      simp only
      rw [writeTail_get?]
      have : r.tail_positions.get? i = none := List.get?_eq_none.mpr h.1
      rw [this]
    · rw [cover, if_neg hr] at h
      rw [updOne_not_target r s (fun hs => hr hs.symm)]
      exact ih s h

theorem chainUpd_absorb (rs : List Orientation) (s t : Snake)
    (hid : t.id = s.id) (hcol : t.color = s.color)
    (hlen : t.tail.length = s.tail.length)
    (hcols : ∀ i, (t.tail.get? i).map TailSeg.color =
        (s.tail.get? i).map TailSeg.color)
    (hframe : ∀ i, cover s.id rs ≤ i → t.tail.get? i = s.tail.get? i)
    (hno : rs.any (fun r => r.id == s.id) = false → t = s) :
    chainUpd rs t = chainUpd rs s := by
  induction rs generalizing s t with
  | nil => exact hno rfl
  | cons r rs ih =>
    rw [chainUpd_cons, chainUpd_cons]
    by_cases hr : r.id = s.id
    · -- the record targets this snake: both sides overwrite the same fields
      have htr : t.id = r.id := by rw [hid, hr]
      have hwt : ∀ i, (writeTail t.tail r.tail_positions).get? i =
          (writeTail s.tail r.tail_positions).get? i ∨
          ((writeTail t.tail r.tail_positions).get? i = t.tail.get? i ∧
           (writeTail s.tail r.tail_positions).get? i = s.tail.get? i ∧
           r.tail_positions.length ≤ i) := by
        intro i
        rw [writeTail_get?, writeTail_get?]
        cases hsrv : r.tail_positions.get? i with
        | none =>
          exact Or.inr ⟨rfl, rfl, List.get?_eq_none.mp hsrv⟩
        | some p =>
          left
          cases hs : s.tail.get? i with
          | none =>
            have : t.tail.get? i = none := by
              rw [List.get?_eq_none] at hs ⊢; omega
            rw [this]
          | some b =>
            have hc := hcols i
            rw [hs] at hc
            cases ht : t.tail.get? i with
            | none => rw [ht] at hc; simp at hc
            | some a =>
              rw [ht] at hc
              simp only [Option.map_some'] at hc ⊢
              rw [Option.some.injEq] at hc
              rw [hc]
      apply ih (updOne r s) (updOne r t)
      · rw [updOne_id, updOne_id, hid]
      · rw [updOne_color, updOne_color, hcol]
      · rw [updOne_tail_length, updOne_tail_length, hlen]
      · intro i
        rw [updOne_tail_color, updOne_tail_color]
        exact hcols i
      · intro i hcov
        rw [updOne_id] at hcov
        unfold updOne
        rw [if_pos htr, if_pos hr.symm]
        simp only
        rcases hwt i with hw | ⟨hw1, hw2, hw3⟩
        · exact hw
        · rw [hw1, hw2]
          apply hframe
          rw [cover, if_pos hr]
          exact max_le hw3 hcov
      · intro hany
        rw [updOne_id] at hany
        have hcov0 : cover s.id rs = 0 := cover_no_record s.id rs hany
        have htail : writeTail t.tail r.tail_positions =
            writeTail s.tail r.tail_positions := by
          apply List.ext_get?
          intro i
          rcases hwt i with hw | ⟨hw1, hw2, hw3⟩
          · exact hw
          · rw [hw1, hw2]
            apply hframe
            rw [cover, if_pos hr, hcov0]
            exact max_le hw3 (Nat.zero_le i)
        unfold updOne
        rw [if_pos htr, if_pos hr.symm]
        cases t with
        | mk tid tpos tdir tindir tcol ttail =>
          cases s with
          | mk sid spos sdir sindir scol stail =>
            simp only [Snake.mk.injEq] at hid hcol ⊢
            simp only at htail
            exact ⟨hid, trivial, trivial, trivial, hcol, htail⟩
    · -- the record targets a different snake: both sides are untouched
      rw [updOne_not_target r t (fun hs => hr (hs ▸ hid.symm ▸ rfl)),
          updOne_not_target r s (fun hs => hr hs.symm)]
      apply ih s t hid hcol hlen hcols
      · intro i hcov
        apply hframe
        rw [cover, if_neg hr]
        exact hcov
      · intro hany
        apply hno
        simp only [List.any_cons, Bool.or_eq_false_iff, beq_eq_false_iff_ne]
        exact ⟨hr, hany⟩

theorem chainUpd_idem (rs : List Orientation) (s : Snake) :
    chainUpd rs (chainUpd rs s) = chainUpd rs s :=
  chainUpd_absorb rs s (chainUpd rs s) (chainUpd_id rs s) (chainUpd_color rs s)
    (chainUpd_tail_length rs s) (chainUpd_tail_color rs s)
    (chainUpd_frame rs s) (chainUpd_no_record rs s)

theorem map_updOne_ids (r : Orientation) (d : List Snake) :
    (d.map (updOne r)).map Snake.id = d.map Snake.id := by
  induction d with
  | nil => rfl
  | cons s d ih => simp [updOne_id, ih]

theorem map_chainUpd_ids (rs : List Orientation) (d : List Snake) :
    (d.map (chainUpd rs)).map Snake.id = d.map Snake.id := by
  induction d with
  | nil => rfl
  | cons s d ih => simp [chainUpd_id, ih]

theorem any_eq_any_map_id (d : List Snake) (k : Nat) :
    d.any (fun s => s.id == k) = (d.map Snake.id).any (fun n => n == k) := by
  induction d with
  | nil => rfl
  | cons s d ih => simp [List.any_cons, ih]

theorem any_id_of_map_ids (d d' : List Snake) (k : Nat)
    (h : d.map Snake.id = d'.map Snake.id) :
    d.any (fun s => s.id == k) = d'.any (fun s => s.id == k) := by
  rw [any_eq_any_map_id, any_eq_any_map_id, h]

theorem applyOrients_ok_eq (rs : List Orientation) (d e : List Snake)
    (h : applyOrients d rs = Except.ok e) : e = d.map (chainUpd rs) := by
  induction rs generalizing d with
  | nil =>
    simp only [applyOrients, Except.ok.injEq] at h
    have : d.map (chainUpd []) = d := by
      have : chainUpd [] = fun s => s := funext fun s => rfl
      rw [this, List.map_id']
    rw [this, ← h]
  | cons r rs ih =>
    rw [applyOrients] at h
    split at h
    · have := ih (d.map (updOne r)) h
      rw [this, List.map_map]
      have hfun : chainUpd rs ∘ updOne r = chainUpd (r :: rs) :=
        funext fun s => rfl
      rw [hfun]
    · exact absurd h (by simp)

theorem applyOrients_ok_of_ids (rs : List Orientation) (d d' e : List Snake)
    (hids : d.map Snake.id = d'.map Snake.id)
    (h : applyOrients d rs = Except.ok e) :
    ∃ e', applyOrients d' rs = Except.ok e' := by
  induction rs generalizing d d' with
  | nil => exact ⟨d', rfl⟩
  | cons r rs ih =>
    rw [applyOrients] at h ⊢
    rw [← any_id_of_map_ids d d' r.id hids]
    split at h
    · rename_i hany
      rw [if_pos hany]
      apply ih (d.map (updOne r)) (d'.map (updOne r))
      · rw [map_updOne_ids, map_updOne_ids, hids]
      · exact h
    · exact absurd h (by simp)

/-! ## Claim theorems: position reconciliation (C4, C5, C6) -/

/-- C4: for every snake targeted by an orientation record, tail reconciliation
keeps the tail length, rewrites exactly the segments at indices where both the
local tail and the server list have an entry (the position becomes the server
position, the color is kept), leaves every segment at an index at or beyond
the server-reported length unchanged, and in particular a server tail list of
length 0 leaves the whole local tail untouched. -/
theorem C4_tail_overwrite_bounded (r : Orientation) (s : Snake)
    (h : s.id = r.id) :
    (updOne r s).tail.length = s.tail.length
  ∧ (∀ i, r.tail_positions.length ≤ i →
      (updOne r s).tail.get? i = s.tail.get? i)
  ∧ (∀ i p t, r.tail_positions.get? i = some p → s.tail.get? i = some t →
      (updOne r s).tail.get? i = some ⟨⟨p.1, p.2⟩, t.color⟩)
  ∧ (r.tail_positions = [] → (updOne r s).tail = s.tail) := by
  refine ⟨updOne_tail_length r s, ?_, ?_, ?_⟩
  · intro i hi
    unfold updOne
    rw [if_pos h]
    simp only
    rw [writeTail_get?, List.get?_eq_none.mpr hi]
  · intro i p t hp ht
    unfold updOne
    rw [if_pos h]
    simp only
    rw [writeTail_get?, hp, ht]
    rfl
  · intro hnil
    unfold updOne
    rw [if_pos h]
    simp only [hnil, writeTail]

/-- C4 witness: a concrete targeted snake with one tail segment and a server
tail list of length 0 — the tail segment is untouched. -/
theorem C4_tail_overwrite_bounded_witness :
    (updOne ⟨0, (2, 3), Direction.Left, Direction.Up, []⟩
        ⟨0, ⟨0, 0⟩, Direction.Up, Direction.Up, ⟨1, 1, 1⟩,
          [⟨⟨9, 9⟩, ⟨1, 1, 1⟩⟩]⟩).tail =
      [⟨⟨9, 9⟩, ⟨1, 1, 1⟩⟩] ∧
    (updOne ⟨0, (2, 3), Direction.Left, Direction.Up, []⟩
        ⟨0, ⟨0, 0⟩, Direction.Up, Direction.Up, ⟨1, 1, 1⟩,
          [⟨⟨9, 9⟩, ⟨1, 1, 1⟩⟩]⟩).tail.get? 0 =
      some ⟨⟨9, 9⟩, ⟨1, 1, 1⟩⟩ :=
  ⟨(C4_tail_overwrite_bounded _ _ rfl).2.2.2 rfl,
   (C4_tail_overwrite_bounded _ _ rfl).2.1 0 (Nat.le_refl 0)⟩

/-- C5: a position-update batch consisting of one orientation record whose id
is absent from the directory fails with the unknown-snake protocol violation,
and the directory carried at the failure is the unmodified one. -/
theorem C5_unknown_id_fatal (d : List Snake) (r : Orientation)
    (h : ∀ s ∈ d, s.id ≠ r.id) :
    update_snake_positions d (some [⟨[r]⟩]) =
      Except.error (unknownSnakeMsg, d) := by
  have hany : d.any (fun s => s.id == r.id) = false := by
    simp only [List.any_eq_false, beq_iff_eq]
    exact h
  show applyOrients d [r] = Except.error (unknownSnakeMsg, d)
  rw [applyOrients, if_neg (by simp [hany])]

/-- C5 witness: a directory holding only snake 1, an orientation record for
snake 5. -/
theorem C5_unknown_id_fatal_witness :
    update_snake_positions
        [⟨1, ⟨0, 0⟩, Direction.Up, Direction.Up, ⟨1, 1, 1⟩, []⟩]
        (some [⟨[⟨5, (2, 3), Direction.Left, Direction.Up, []⟩]⟩]) =
      Except.error (unknownSnakeMsg,
        [⟨1, ⟨0, 0⟩, Direction.Up, Direction.Up, ⟨1, 1, 1⟩, []⟩]) :=
  C5_unknown_id_fatal _ _ (by decide)

/-- C6: position reconciliation is idempotent — if a batch applies cleanly to
a directory, applying the same batch to the result reproduces the result
exactly (same positions, directions and tail-segment positions). -/
theorem C6_reconciliation_idempotent (d : List Snake)
    (batch : Option (List SnakePositions)) (d₁ : List Snake)
    (h : update_snake_positions d batch = Except.ok d₁) :
    update_snake_positions d₁ batch = Except.ok d₁ := by
  cases batch with
  | none => simp only [update_snake_positions]
  | some ps =>
    rw [update_snake_positions] at h ⊢
    have hd₁ : d₁ = d.map (chainUpd (ps.flatMap SnakePositions.positions)) :=
      applyOrients_ok_eq _ d d₁ h
    have hids : d.map Snake.id = d₁.map Snake.id := by
      rw [hd₁, map_chainUpd_ids]
    obtain ⟨e', he'⟩ := applyOrients_ok_of_ids _ d d₁ d₁ hids h
    have he : e' = d₁.map (chainUpd (ps.flatMap SnakePositions.positions)) :=
      applyOrients_ok_eq _ d₁ e' he'
    have hfix : d₁.map (chainUpd (ps.flatMap SnakePositions.positions)) = d₁ := by
      rw [hd₁, List.map_map]
      have : chainUpd (ps.flatMap SnakePositions.positions) ∘
          chainUpd (ps.flatMap SnakePositions.positions) =
          chainUpd (ps.flatMap SnakePositions.positions) :=
        funext fun s => chainUpd_idem _ s
      rw [this]
    rw [he', he, hfix]

/-- C6 witness: one snake, one orientation record for it. -/
theorem C6_reconciliation_idempotent_witness :
    update_snake_positions
        [⟨0, ⟨2, 3⟩, Direction.Up, Direction.Left, ⟨1, 1, 1⟩, []⟩]
        (some [⟨[⟨0, (2, 3), Direction.Left, Direction.Up, []⟩]⟩]) =
      Except.ok [⟨0, ⟨2, 3⟩, Direction.Up, Direction.Left, ⟨1, 1, 1⟩, []⟩] :=
  C6_reconciliation_idempotent
    [⟨0, ⟨0, 0⟩, Direction.Right, Direction.Right, ⟨1, 1, 1⟩, []⟩]
    (some [⟨[⟨0, (2, 3), Direction.Left, Direction.Up, []⟩]⟩])
    [⟨0, ⟨2, 3⟩, Direction.Up, Direction.Left, ⟨1, 1, 1⟩, []⟩]
    rfl

/-! ## Claim theorems: connection and spawn phases (C10, C3, C1, C2) -/

/-- C10: a present but empty session-ack batch while connecting changes
nothing — no resource is recorded and the phase stays `ConnectToServer`. -/
theorem C10_empty_ack_noop (st : ConnectSt)
    (h : st.phase = GameState.ConnectToServer) :
    wait_for_ack st (some []) = st ∧
    (wait_for_ack st (some [])).phase = GameState.ConnectToServer ∧
    (wait_for_ack st (some [])).num_snakes = st.num_snakes ∧
    (wait_for_ack st (some [])).client_id = st.client_id :=
  ⟨rfl, h, rfl, rfl⟩

/-- C10 witness: the initial connection state. -/
theorem C10_empty_ack_noop_witness :
    wait_for_ack ⟨GameState.ConnectToServer, none, none⟩ (some []) =
        ⟨GameState.ConnectToServer, none, none⟩ ∧
    (wait_for_ack ⟨GameState.ConnectToServer, none, none⟩
        (some [])).phase = GameState.ConnectToServer ∧
    (wait_for_ack ⟨GameState.ConnectToServer, none, none⟩
        (some [])).num_snakes = none ∧
    (wait_for_ack ⟨GameState.ConnectToServer, none, none⟩
        (some [])).client_id = none :=
  C10_empty_ack_noop ⟨GameState.ConnectToServer, none, none⟩ rfl

/-- C3: one spawn record, in batch order — an id below the tracked next id is
skipped with no state change; an id above it is a fatal mismatch leaving the
state untouched; an id equal to it appends exactly one snake built from the
record's position and color, increments the tracked id by one and decrements
the expected count by one, failing fatally if the count went negative. -/
theorem C3_spawn_record (st : PreSt) (sp : SpawnSnake) (rest : List SpawnSnake) :
    (sp.id < st.snake_id.id →
      processSpawns st (sp :: rest) = processSpawns st rest)
  ∧ (st.snake_id.id < sp.id →
      processSpawns st (sp :: rest) = Except.error (idMismatchMsg, st))
  ∧ (sp.id = st.snake_id.id →
      ∃ st' : PreSt,
        st'.snakes = st.snakes ++
          [spawn_snake sp.id ⟨sp.position.1, sp.position.2⟩ sp.sRGB]
      ∧ st'.snake_id.id = st.snake_id.id + 1
      ∧ st'.num_snakes.num = st.num_snakes.num - 1
      ∧ (st'.num_snakes.num < 0 →
          processSpawns st (sp :: rest) = Except.error (tooManySnakesMsg, st'))
      ∧ (0 ≤ st'.num_snakes.num →
          processSpawns st (sp :: rest) = processSpawns st' rest)) := by
  refine ⟨?_, ?_, ?_⟩
  · intro hlt
    rw [processSpawns, if_pos hlt]
  · intro hgt
    rw [processSpawns, if_neg (by omega), if_pos hgt]
  · intro heq
    refine ⟨⟨⟨st.snake_id.id + 1⟩, ⟨st.num_snakes.num - 1⟩,
        st.snakes ++
          [spawn_snake sp.id ⟨sp.position.1, sp.position.2⟩ sp.sRGB]⟩,
      rfl, rfl, rfl, ?_, ?_⟩
    · intro hneg
      rw [processSpawns, if_neg (by omega), if_neg (by omega), if_pos hneg]
    · intro hpos
      rw [processSpawns, if_neg (by omega), if_neg (by omega),
        if_neg (by omega)]

/-- C3 witness: tracked id 5 and expected count 2 — a duplicate record (id 3)
is skipped, a gap record (id 7) is fatal, the matching record (id 5) spawns
and moves both counters. -/
theorem C3_spawn_record_witness :
    (processSpawns ⟨⟨5⟩, ⟨2⟩, []⟩ [⟨3, (0, 0), ⟨0, 0, 0⟩⟩] =
      processSpawns ⟨⟨5⟩, ⟨2⟩, []⟩ [])
  ∧ (processSpawns ⟨⟨5⟩, ⟨2⟩, []⟩ [⟨7, (0, 0), ⟨0, 0, 0⟩⟩] =
      Except.error (idMismatchMsg, ⟨⟨5⟩, ⟨2⟩, []⟩))
  ∧ (∃ st' : PreSt,
        st'.snakes = [] ++ [spawn_snake 5 ⟨1, 2⟩ ⟨0, 0, 0⟩]
      ∧ st'.snake_id.id = 5 + 1
      ∧ st'.num_snakes.num = 2 - 1
      ∧ (st'.num_snakes.num < 0 →
          processSpawns ⟨⟨5⟩, ⟨2⟩, []⟩ [⟨5, (1, 2), ⟨0, 0, 0⟩⟩] =
            Except.error (tooManySnakesMsg, st'))
      ∧ (0 ≤ st'.num_snakes.num →
          processSpawns ⟨⟨5⟩, ⟨2⟩, []⟩ [⟨5, (1, 2), ⟨0, 0, 0⟩⟩] =
            processSpawns st' [])) :=
  ⟨(C3_spawn_record ⟨⟨5⟩, ⟨2⟩, []⟩ ⟨3, (0, 0), ⟨0, 0, 0⟩⟩ []).1 (by decide),
   (C3_spawn_record ⟨⟨5⟩, ⟨2⟩, []⟩ ⟨7, (0, 0), ⟨0, 0, 0⟩⟩ []).2.1 (by decide),
   (C3_spawn_record ⟨⟨5⟩, ⟨2⟩, []⟩ ⟨5, (1, 2), ⟨0, 0, 0⟩⟩ []).2.2 rfl⟩

theorem pre_game_ready_iff (st : PreSt) (inp : Option (List SpawnSnake))
    (st' : PreSt) (ready : Bool)
    (h : pre_game st inp = Except.ok (st', ready)) :
    ready = true ↔ (∃ b, inp = some b) ∧ st'.num_snakes.num = 0 := by
  cases inp with
  | none =>
    simp only [pre_game, Except.ok.injEq, Prod.mk.injEq] at h
    simp [← h.2]
  | some b =>
    rw [pre_game] at h
    cases hps : processSpawns st b with
    | error e => rw [hps] at h; cases h
    | ok st₂ =>
      rw [hps] at h
      simp only [Except.ok.injEq, Prod.mk.injEq] at h
      obtain ⟨h1, h2⟩ := h
      subst h1
      simp [← h2, beq_iff_eq]

theorem sessionStep_not_pregame (s : Session) (inp : Option (List SpawnSnake))
    (h : ¬ s.phase = GameState.PreGame) :
    sessionStep s inp = Except.ok (s, false) := by
  obtain ⟨phase, pre⟩ := s
  cases phase with
  | PreGame => exact absurd rfl h
  | ConnectToServer => rfl
  | Running => rfl

theorem sessionRun_not_pregame (s : Session)
    (inps : List (Option (List SpawnSnake)))
    (h : ¬ s.phase = GameState.PreGame) :
    sessionRun s inps = Except.ok (s, 0) := by
  induction inps with
  | nil => rfl
  | cons inp rest ih =>
    simp [sessionRun, sessionStep_not_pregame s inp h, ih]

theorem sessionStep_emit_running (s : Session) (inp : Option (List SpawnSnake))
    (s' : Session) (h : sessionStep s inp = Except.ok (s', true)) :
    s'.phase = GameState.Running := by
  obtain ⟨phase, pre⟩ := s
  cases phase with
  | PreGame =>
    rw [sessionStep] at h
    cases hpg : pre_game pre inp with
    | error e => rw [hpg] at h; cases h
    | ok p =>
      obtain ⟨st', ready⟩ := p
      rw [hpg] at h
      simp only [Except.ok.injEq, Prod.mk.injEq] at h
      obtain ⟨h1, h2⟩ := h
      subst h2
      rw [← h1]
      rfl
  | ConnectToServer => simp [sessionStep] at h
  | Running => simp [sessionStep] at h

theorem sessionStep_ready_iff (s : Session) (inp : Option (List SpawnSnake))
    (s' : Session) (ready : Bool)
    (hphase : s.phase = GameState.PreGame)
    (hstep : sessionStep s inp = Except.ok (s', ready)) :
    ready = true ↔ (∃ b, inp = some b) ∧ s'.pre.num_snakes.num = 0 := by
  obtain ⟨phase, pre⟩ := s
  simp only at hphase
  subst hphase
  rw [sessionStep] at hstep
  cases hpg : pre_game pre inp with
  | error e => rw [hpg] at hstep; cases hstep
  | ok p =>
    obtain ⟨st', r⟩ := p
    rw [hpg] at hstep
    simp only [Except.ok.injEq, Prod.mk.injEq] at hstep
    obtain ⟨h1, h2⟩ := hstep
    subst h2
    rw [← h1]
    exact pre_game_ready_iff pre inp st' _ hpg

/-- C1: over every session, at most one `Ready` packet is ever sent, and on a
`PreGame` tick one is sent exactly when a spawn batch was present and the
expected count after processing it is zero (the tick that first brings the
counter to zero triggers the emission and the phase change, after which
`pre_game` no longer runs). -/
theorem C1_ready_exactly_once :
    (∀ (s : Session) (inputs : List (Option (List SpawnSnake)))
        (s' : Session) (n : Nat),
        sessionRun s inputs = Except.ok (s', n) → n ≤ 1)
  ∧ (∀ (s : Session) (inp : Option (List SpawnSnake))
        (s' : Session) (ready : Bool),
        s.phase = GameState.PreGame →
        sessionStep s inp = Except.ok (s', ready) →
        (ready = true ↔ (∃ b, inp = some b) ∧ s'.pre.num_snakes.num = 0)) := by
  constructor
  · intro s inputs
    induction inputs generalizing s with
    | nil =>
      intro s' n h
      simp only [sessionRun, Except.ok.injEq, Prod.mk.injEq] at h
      omega
    | cons inp rest ih =>
      intro s' n h
      rw [sessionRun] at h
      cases hstep : sessionStep s inp with
      | error e => rw [hstep] at h; cases h
      | ok p =>
        obtain ⟨s₁, ready⟩ := p
        rw [hstep] at h
        dsimp only at h
        cases hrun : sessionRun s₁ rest with
        | error e => rw [hrun] at h; cases h
        | ok q =>
          obtain ⟨s₂, m⟩ := q
          rw [hrun] at h
          simp only [Except.ok.injEq, Prod.mk.injEq] at h
          obtain ⟨h1, h2⟩ := h
          cases ready with
          | false =>
            have hm := ih s₁ s₂ m hrun
            simp at h2
            omega
          | true =>
            have hph : s₁.phase = GameState.Running :=
              sessionStep_emit_running s inp s₁ hstep
            have hfix : sessionRun s₁ rest = Except.ok (s₁, 0) :=
              sessionRun_not_pregame s₁ rest (by simp [hph])
            rw [hrun] at hfix
            simp only [Except.ok.injEq, Prod.mk.injEq] at hfix
            obtain ⟨hf1, hf2⟩ := hfix
            simp at h2
            omega
  · intro s inp s' ready hphase hstep
    exact sessionStep_ready_iff s inp s' ready hphase hstep

/-- C1 witness: expected count 1; tick one receives the single spawn and
emits `Ready`; tick two (already in `Running`) emits nothing; the whole run
emits once. -/
theorem C1_ready_exactly_once_witness :
    (1 : Nat) ≤ 1 ∧
    (true = true ↔
      (∃ b, (some [(⟨0, (0, 0), ⟨0, 0, 0⟩⟩ : SpawnSnake)] :
          Option (List SpawnSnake)) = some b) ∧
      (Session.pre ⟨GameState.Running,
          ⟨⟨1⟩, ⟨0⟩, [spawn_snake 0 ⟨0, 0⟩ ⟨0, 0, 0⟩]⟩⟩).num_snakes.num = 0) :=
  ⟨C1_ready_exactly_once.1 ⟨GameState.PreGame, ⟨⟨0⟩, ⟨1⟩, []⟩⟩
      [some [⟨0, (0, 0), ⟨0, 0, 0⟩⟩], some []]
      ⟨GameState.Running, ⟨⟨1⟩, ⟨0⟩, [spawn_snake 0 ⟨0, 0⟩ ⟨0, 0, 0⟩]⟩⟩ 1 rfl,
   C1_ready_exactly_once.2 ⟨GameState.PreGame, ⟨⟨0⟩, ⟨1⟩, []⟩⟩
      (some [⟨0, (0, 0), ⟨0, 0, 0⟩⟩])
      ⟨GameState.Running, ⟨⟨1⟩, ⟨0⟩, [spawn_snake 0 ⟨0, 0⟩ ⟨0, 0, 0⟩]⟩⟩
      true rfl rfl⟩

/-- C2: a `PreGame` tick that sends the readiness packet moves the phase to
`Running`, with the expected count at zero; no further packet is involved. -/
theorem C2_transition_to_running (s : Session)
    (inp : Option (List SpawnSnake)) (s' : Session)
    (hphase : s.phase = GameState.PreGame)
    (hstep : sessionStep s inp = Except.ok (s', true)) :
    s'.phase = GameState.Running ∧ s'.pre.num_snakes.num = 0 :=
  ⟨sessionStep_emit_running s inp s' hstep,
   ((sessionStep_ready_iff s inp s' true hphase hstep).mp rfl).2⟩

/-- C2 witness: the same single-snake session as for C1. -/
theorem C2_transition_to_running_witness :
    (Session.phase ⟨GameState.Running,
        ⟨⟨1⟩, ⟨0⟩, [spawn_snake 0 ⟨0, 0⟩ ⟨0, 0, 0⟩]⟩⟩) = GameState.Running ∧
    (Session.pre ⟨GameState.Running,
        ⟨⟨1⟩, ⟨0⟩, [spawn_snake 0 ⟨0, 0⟩ ⟨0, 0, 0⟩]⟩⟩).num_snakes.num = 0 :=
  C2_transition_to_running ⟨GameState.PreGame, ⟨⟨0⟩, ⟨1⟩, []⟩⟩
    (some [⟨0, (0, 0), ⟨0, 0, 0⟩⟩])
    ⟨GameState.Running, ⟨⟨1⟩, ⟨0⟩, [spawn_snake 0 ⟨0, 0⟩ ⟨0, 0, 0⟩]⟩⟩ rfl rfl

/-! ## Claim theorems: input sampling and tail spawns (C7, C9, C8) -/

theorem get?_map_snake (f : Snake → Snake) (l : List Snake) (i : Nat) :
    (l.map f).get? i = (l.get? i).map f := by
  induction l generalizing i with
  | nil => rfl
  | cons s l ih => cases i <;> simp [ih]

theorem moveHead_some_id (keys : Keys) (s : Snake) (pkt : SnakeMovement)
    (h : (moveHead keys s).2 = some pkt) : pkt.id = s.id := by
  simp only [moveHead] at h
  split at h
  · simp only [Option.some.injEq] at h
    rw [← h]
  · simp at h

/-- C7: the candidate direction is chosen with fixed precedence
Left, Down, Up, Right among pressed keys and is the pending input direction
when none is pressed; a `SnakeMovement` intent is emitted if and only if the
candidate is neither the opposite of the committed direction nor equal to the
pending input direction, and on emission the pending input direction becomes
the candidate and the packet carries it. -/
theorem C7_input_sampling (keys : Keys) (h : Snake) :
    (keys.left = true → sampleDir keys h.input_direction = Direction.Left)
  ∧ (keys.left = false → keys.down = true →
      sampleDir keys h.input_direction = Direction.Down)
  ∧ (keys.left = false → keys.down = false → keys.up = true →
      sampleDir keys h.input_direction = Direction.Up)
  ∧ (keys.left = false → keys.down = false → keys.up = false →
      keys.right = true → sampleDir keys h.input_direction = Direction.Right)
  ∧ (keys.left = false → keys.down = false → keys.up = false →
      keys.right = false →
      sampleDir keys h.input_direction = h.input_direction)
  ∧ ((sampleDir keys h.input_direction ≠ h.direction.opposite ∧
      sampleDir keys h.input_direction ≠ h.input_direction) →
      moveHead keys h =
        ({ h with input_direction := sampleDir keys h.input_direction },
         some ⟨h.id, sampleDir keys h.input_direction⟩))
  ∧ (¬ (sampleDir keys h.input_direction ≠ h.direction.opposite ∧
        sampleDir keys h.input_direction ≠ h.input_direction) →
      moveHead keys h = (h, none)) := by
  refine ⟨?_, ?_, ?_, ?_, ?_, ?_, ?_⟩
  · intro h1; simp [sampleDir, h1]
  · intro h1 h2; simp [sampleDir, h1, h2]
  · intro h1 h2 h3; simp [sampleDir, h1, h2, h3]
  · intro h1 h2 h3 h4; simp [sampleDir, h1, h2, h3, h4]
  · intro h1 h2 h3 h4; simp [sampleDir, h1, h2, h3, h4]
  · intro hc; simp only [moveHead]; rw [if_pos hc]
  · intro hc; simp only [moveHead]; rw [if_neg hc]

/-- C7 witness: concrete key states exercising every precedence case, one
emitting tick (pressing Left with committed and pending `Up`) and one
non-emitting tick (no key pressed). -/
theorem C7_input_sampling_witness :
    sampleDir ⟨true, true, false, false⟩ Direction.Up = Direction.Left
  ∧ sampleDir ⟨false, true, true, false⟩ Direction.Up = Direction.Down
  ∧ sampleDir ⟨false, false, true, true⟩ Direction.Up = Direction.Up
  ∧ sampleDir ⟨false, false, false, true⟩ Direction.Up = Direction.Right
  ∧ sampleDir ⟨false, false, false, false⟩ Direction.Up = Direction.Up
  ∧ moveHead ⟨true, false, false, false⟩
      ⟨7, ⟨0, 0⟩, Direction.Up, Direction.Up, ⟨0, 0, 0⟩, []⟩ =
      (⟨7, ⟨0, 0⟩, Direction.Up, Direction.Left, ⟨0, 0, 0⟩, []⟩,
       some ⟨7, Direction.Left⟩)
  ∧ moveHead ⟨false, false, false, false⟩
      ⟨7, ⟨0, 0⟩, Direction.Up, Direction.Up, ⟨0, 0, 0⟩, []⟩ =
      (⟨7, ⟨0, 0⟩, Direction.Up, Direction.Up, ⟨0, 0, 0⟩, []⟩, none) :=
  ⟨(C7_input_sampling ⟨true, true, false, false⟩
      ⟨7, ⟨0, 0⟩, Direction.Up, Direction.Up, ⟨0, 0, 0⟩, []⟩).1 rfl,
   (C7_input_sampling ⟨false, true, true, false⟩
      ⟨7, ⟨0, 0⟩, Direction.Up, Direction.Up, ⟨0, 0, 0⟩, []⟩).2.1 rfl rfl,
   (C7_input_sampling ⟨false, false, true, true⟩
      ⟨7, ⟨0, 0⟩, Direction.Up, Direction.Up, ⟨0, 0, 0⟩, []⟩).2.2.1 rfl rfl rfl,
   (C7_input_sampling ⟨false, false, false, true⟩
      ⟨7, ⟨0, 0⟩, Direction.Up, Direction.Up, ⟨0, 0, 0⟩,
        []⟩).2.2.2.1 rfl rfl rfl rfl,
   (C7_input_sampling ⟨false, false, false, false⟩
      ⟨7, ⟨0, 0⟩, Direction.Up, Direction.Up, ⟨0, 0, 0⟩,
        []⟩).2.2.2.2.1 rfl rfl rfl rfl,
   (C7_input_sampling ⟨true, false, false, false⟩
      ⟨7, ⟨0, 0⟩, Direction.Up, Direction.Up, ⟨0, 0, 0⟩,
        []⟩).2.2.2.2.2.1 (by decide),
   (C7_input_sampling ⟨false, false, false, false⟩
      ⟨7, ⟨0, 0⟩, Direction.Up, Direction.Up, ⟨0, 0, 0⟩,
        []⟩).2.2.2.2.2.2 (by decide)⟩

/-- C9: every movement intent emitted by input sampling carries the session's
`ClientId` as its snake id. -/
theorem C9_intent_is_own_id (keys : Keys) (cid : ClientId)
    (heads : List Snake) (pkt : SnakeMovement)
    (h : (snake_movement_input keys cid heads).2 = some pkt) :
    pkt.id = cid.id := by
  induction heads with
  | nil => simp [snake_movement_input] at h
  | cons hd rest ih =>
    rw [snake_movement_input] at h
    by_cases hid : hd.id = cid.id
    · rw [if_pos hid] at h
      dsimp only at h
      rw [moveHead_some_id keys hd pkt h]
      exact hid
    · rw [if_neg hid] at h
      dsimp only at h
      exact ih h

/-- C9 witness: a session whose client id is 7 pressing Left emits an intent
whose id is 7. -/
theorem C9_intent_is_own_id_witness :
    (SnakeMovement.id ⟨7, Direction.Left⟩) = (ClientId.id ⟨7⟩) :=
  C9_intent_is_own_id ⟨true, false, false, false⟩ ⟨7⟩
    [⟨7, ⟨0, 0⟩, Direction.Up, Direction.Up, ⟨0, 0, 0⟩, []⟩]
    ⟨7, Direction.Left⟩ rfl

/-- C8: one tail-spawn record, in batch order — an id absent from the
directory is a fatal protocol violation with the directory unchanged at the
failure; a present id appends exactly one segment at the record's position
with the owning head's color to that snake's tail, every other snake and the
order of existing segments being untouched. -/
theorem C8_tail_spawn_record (d : List Snake) (st : SpawnTail)
    (rest : List SpawnTail) :
    ((∀ s ∈ d, s.id ≠ st.id) →
      processSpawnTails d (st :: rest) = Except.error (unknownSnakeMsg, d))
  ∧ ((∃ s ∈ d, s.id = st.id) →
      ∃ d', processSpawnTails d (st :: rest) = processSpawnTails d' rest
        ∧ d'.length = d.length
        ∧ ∀ i, d'.get? i = (d.get? i).map (fun s =>
            if s.id = st.id then
              { s with tail := s.tail ++
                  [spawn_tail ⟨st.position.1, st.position.2⟩ s.color] }
            else s)) := by
  constructor
  · intro h
    have hany : d.any (fun s => s.id == st.id) = false := by
      simp only [List.any_eq_false, beq_iff_eq]
      exact h
    rw [processSpawnTails, if_neg (by simp [hany])]
  · intro h
    have hany : d.any (fun s => s.id == st.id) = true := by
      simp only [List.any_eq_true, beq_iff_eq]
      exact h
    refine ⟨d.map (fun s =>
        if s.id = st.id then
          { s with tail := s.tail ++
              [spawn_tail ⟨st.position.1, st.position.2⟩ s.color] }
        else s), ?_, List.length_map _ _, fun i => ?_⟩
    · rw [processSpawnTails, if_pos hany]
    · exact get?_map_snake _ _ _

/-- C8 witness: a directory holding only snake 1 rejects a tail spawn for
snake 5; a directory holding snake 0 accepts a tail spawn for snake 0. -/
theorem C8_tail_spawn_record_witness :
    (processSpawnTails [⟨1, ⟨0, 0⟩, Direction.Up, Direction.Up, ⟨2, 2, 2⟩, []⟩]
        [⟨5, (3, 4)⟩] =
      Except.error (unknownSnakeMsg,
        [⟨1, ⟨0, 0⟩, Direction.Up, Direction.Up, ⟨2, 2, 2⟩, []⟩]))
  ∧ (∃ d', processSpawnTails
        [⟨0, ⟨0, 0⟩, Direction.Up, Direction.Up, ⟨2, 2, 2⟩, []⟩]
        [⟨0, (3, 4)⟩] = processSpawnTails d' []
      ∧ d'.length =
          ([⟨0, ⟨0, 0⟩, Direction.Up, Direction.Up, ⟨2, 2, 2⟩, []⟩] :
            List Snake).length
      ∧ ∀ i, d'.get? i =
          (([⟨0, ⟨0, 0⟩, Direction.Up, Direction.Up, ⟨2, 2, 2⟩, []⟩] :
            List Snake).get? i).map (fun s =>
            if s.id = 0 then
              { s with tail := s.tail ++ [spawn_tail ⟨3, 4⟩ s.color] }
            else s)) :=
  ⟨(C8_tail_spawn_record _ ⟨5, (3, 4)⟩ []).1 (by decide),
   (C8_tail_spawn_record _ ⟨0, (3, 4)⟩ []).2
     ⟨⟨0, ⟨0, 0⟩, Direction.Up, Direction.Up, ⟨2, 2, 2⟩, []⟩, by simp, rfl⟩⟩

end BevySnake
